import Mathlib

/-!
Verification of the uml-diagramming repository's diagram coordination logic.

The repository persists diagram entities in two stores: metadata rows
(`UMLDiagramDB` in `diagram/models.py`) in a relational table, and payload
blobs in a MinIO bucket (`diagram/storage.py`).  The diagram-service request
handlers (the Coordinator) sequence the two stores; the gateway
(`gateway/main.py`) forwards requests to the diagram service.

We embed the blob store as an association list from object keys to stored
documents, the metadata table as a list of records, and each coordinator
operation as a pure state-transforming function.  Failures of the external
stores (blob put, metadata insert, blob delete) are injected through Boolean
parameters, following the failure cases the spec's state machines enumerate.
-/

namespace UmlDiagramming

/-- A JSON document, the shape of the `payload: Dict[str, Any]` carried by
`CreateDiagramRequest` / `UpdateDiagramRequest` in `diagram/models.py`.
The coordinator serialises it with `json.dumps` before a blob put and parses
it back with `json.loads` after a blob get; that byte-level round-trip is
abstracted away, so blobs store `Json` values directly. -/
inductive Json where
  | null : Json
  | bool (b : Bool) : Json
  | num (n : Int) : Json
  | str (s : String) : Json
  | arr (elems : List Json) : Json
  | obj (fields : List (String × Json)) : Json

/-- `UMLDiagramDB` from `diagram/models.py`: one relational row per diagram
(id, name, owner_id, payload_url, created_at, updated_at).  UUIDs are
modelled as opaque strings, timestamps as naturals. -/
structure DiagramRecord where
  id : String
  name : String
  owner_id : String
  payload_url : String
  created_at : Nat
  updated_at : Nat
deriving DecidableEq

/-- `UMLDiagramResponse` from `diagram/models.py`: the record fields plus an
optional `payload` field (absent in list responses, present in single-item
responses). -/
structure DiagramResponse where
  id : String
  name : String
  owner_id : String
  payload_url : String
  created_at : Nat
  updated_at : Nat
  payload : Option Json

/-- The error taxonomy for coordinator operations: NotFound (no metadata
row), IntegrityError (metadata row exists but referenced blob is missing),
StorageUnavailable (blob store failure), RepositoryError (metadata store
failure). -/
inductive DiagramError where
  | notFound : DiagramError
  | integrityError : DiagramError
  | storageUnavailable : DiagramError
  | repositoryError : DiagramError
deriving DecidableEq

/-- The fixed MinIO bucket name, `MINIO_BUCKET_NAME` in `diagram/storage.py`. -/
def MINIO_BUCKET_NAME : String := "uml-diagrams"

/-- The key generator: object name = diagram id followed by the fixed
suffix ".json".  Evidenced by `diagram/test_main.py`: the get test builds
the object name as the diagram id plus ".json", and the create test checks
that the called object name has a UUID stem and a ".json" suffix. -/
def objectName (id : String) : String := id ++ ".json"

/-- The payload URL recorded in the metadata row, as returned by
`upload_diagram_payload` in `diagram/storage.py`: the literal "s3://", then
the bucket name, then "/", then the object name. -/
def payloadUrlOf (id : String) : String :=
  "s3://" ++ MINIO_BUCKET_NAME ++ "/" ++ objectName id

/-- The blob store: object key ↦ stored document.  MinIO state visible
through `upload_diagram_payload` / `get_diagram_payload` /
`delete_diagram_payload` in `diagram/storage.py`. -/
def BlobStore : Type := List (String × Json)

/-- Blob get, `get_diagram_payload` in `diagram/storage.py`: returns the
stored bytes, or fails (`FileNotFoundError`, from S3 `NoSuchKey`) when the
key is absent — modelled as `none`. -/
def lookupKey : BlobStore → String → Option Json
  | [], _ => none
  | (k', v) :: rest, k => if k' = k then some v else lookupKey rest k

/-- Blob delete, `delete_diagram_payload` in `diagram/storage.py`, wrapping
MinIO `remove_object`: removes the object if present; removing an absent key
is not an error (S3 delete semantics). -/
def eraseKey : BlobStore → String → BlobStore
  | [], _ => []
  | (k', v) :: rest, k =>
    if k' = k then eraseKey rest k else (k', v) :: eraseKey rest k

/-- Blob put, `upload_diagram_payload` in `diagram/storage.py`, wrapping
MinIO `put_object`: stores the bytes at the key, overwriting any previous
object there. -/
def insertKey (b : BlobStore) (k : String) (v : Json) : BlobStore :=
  (k, v) :: eraseKey b k

/-- Metadata lookup by primary key (`getById`). -/
def findRecord : List DiagramRecord → String → Option DiagramRecord
  | [], _ => none
  | r :: rest, i => if r.id = i then some r else findRecord rest i

/-- Metadata row update: replace the row with the given id. -/
def replaceRecord (rs : List DiagramRecord) (i : String) (r' : DiagramRecord) :
    List DiagramRecord :=
  rs.map (fun r => if r.id = i then r' else r)

/-- Metadata row delete by id. -/
def eraseRecord : List DiagramRecord → String → List DiagramRecord
  | [], _ => []
  | r :: rest, i =>
    if r.id = i then eraseRecord rest i else r :: eraseRecord rest i

/-- The combined persistent state: the MinIO bucket contents and the
relational table contents. -/
structure SysState where
  blobs : BlobStore
  records : List DiagramRecord

@[simp] theorem lookupKey_nil (k : String) : lookupKey [] k = none := rfl

@[simp] theorem lookupKey_cons (k' k : String) (v : Json) (rest : BlobStore) :
    lookupKey ((k', v) :: rest) k =
      if k' = k then some v else lookupKey rest k := rfl

theorem lookupKey_eraseKey_self (b : BlobStore) (k : String) :
    lookupKey (eraseKey b k) k = none := by
  induction b with
  | nil => rfl
  | cons p rest ih =>
    obtain ⟨k₀, v₀⟩ := p
    by_cases h : k₀ = k
    · simpa [eraseKey, h] using ih
    · simpa [eraseKey, h] using ih

theorem lookupKey_eraseKey_ne (b : BlobStore) (k k' : String) (hne : k ≠ k') :
    lookupKey (eraseKey b k) k' = lookupKey b k' := by
  induction b with
  | nil => rfl
  | cons p rest ih =>
    obtain ⟨k₀, v₀⟩ := p
    by_cases h : k₀ = k
    · have h' : k₀ ≠ k' := h ▸ hne
      simpa [eraseKey, h, h', hne] using ih
    · by_cases h' : k₀ = k'
      · simp [eraseKey, h, h', Ne.symm hne]
      · simpa [eraseKey, h, h', hne] using ih

@[simp] theorem lookupKey_insertKey_self (b : BlobStore) (k : String) (v : Json) :
    lookupKey (insertKey b k v) k = some v := by
  simp [insertKey]

theorem lookupKey_insertKey_ne (b : BlobStore) (k k' : String) (v : Json)
    (hne : k ≠ k') : lookupKey (insertKey b k v) k' = lookupKey b k' := by
  simp [insertKey, hne]
  exact lookupKey_eraseKey_ne b k k' hne

theorem objectName_inj {a b : String} (h : objectName a = objectName b) :
    a = b := by
  unfold objectName at h
  cases a with
  | mk da =>
    cases b with
    | mk db =>
      have hd : da ++ ".json".data = db ++ ".json".data := by
        have := congrArg String.data h
        simpa [String.data] using this
      have : da = db := List.append_cancel_right hd
      exact congrArg String.mk this

theorem payloadUrlOf_inj {a b : String} (h : payloadUrlOf a = payloadUrlOf b) :
    a = b := by
  unfold payloadUrlOf at h
  apply objectName_inj
  cases hoa : objectName a with
  | mk da =>
    cases hob : objectName b with
    | mk db =>
      rw [hoa, hob] at h
      have hd : ("s3://" ++ MINIO_BUCKET_NAME ++ "/").data ++ da =
          ("s3://" ++ MINIO_BUCKET_NAME ++ "/").data ++ db := by
        have := congrArg String.data h
        simpa [String.data] using this
      have : da = db := List.append_cancel_left hd
      exact congrArg String.mk this

/-- Assemble a `UMLDiagramResponse` from a metadata row and an optional
payload, as the diagram-service handlers do before returning. -/
def hydrate (r : DiagramRecord) (p : Option Json) : DiagramResponse :=
  ⟨r.id, r.name, r.owner_id, r.payload_url, r.created_at, r.updated_at, p⟩

/-- Modelled from the spec: the Create state machine of §4.4 of the design
(the diagram-service POST handler, `diagram/main.py`, is not under `src/`;
only its tests and models are).  Step 1 generates the identifier `newId` and
key; step 2 writes the serialized payload to the blob store (failure
injected by `blobPutOk = false`: abort with a storage-unavailable error, no
metadata row); step 3 inserts the metadata row referencing the key (failure
injected by `metaInsertOk = false`: attempt to delete the just-written blob,
compensation success injected by `compensateOk`, and surface the original
metadata-write failure regardless of the compensation outcome).  On success
return the hydrated diagram with the original payload. -/
def createDiagram (st : SysState) (newId nm owner : String) (payload : Json)
    (now : Nat) (blobPutOk metaInsertOk compensateOk : Bool) :
    Except DiagramError DiagramResponse × SysState :=
  let key := objectName newId
  if blobPutOk then
    let st1 : SysState := { st with blobs := insertKey st.blobs key payload }
    if metaInsertOk then
      let r : DiagramRecord := ⟨newId, nm, owner, payloadUrlOf newId, now, now⟩
      (Except.ok (hydrate r (some payload)),
        { st1 with records := r :: st1.records })
    else
      let st2 : SysState :=
        if compensateOk then { st1 with blobs := eraseKey st1.blobs key }
        else st1
      (Except.error DiagramError.repositoryError, st2)
  else
    (Except.error DiagramError.storageUnavailable, st)

/-- Modelled from the spec: the Read-one operation of §4.4 (the GET handler
in `diagram/main.py` is not under `src/`).  Fetch metadata by id; if absent,
fail with NotFound.  Else fetch the blob by the stored key (the test suite
shows the handler calls `get_diagram_payload` with the diagram id plus
".json"); if the blob is absent, surface an internal-inconsistency error
distinct from NotFound.  Else return the hydrated diagram. -/
def getDiagram (st : SysState) (i : String) :
    Except DiagramError DiagramResponse :=
  match findRecord st.records i with
  | none => Except.error DiagramError.notFound
  | some r =>
    match lookupKey st.blobs (objectName r.id) with
    | none => Except.error DiagramError.integrityError
    | some p => Except.ok (hydrate r (some p))

/-- Modelled from the spec: the Read-many operation of §4.4 (the list
handler in `diagram/main.py` is not under `src/`).  Fetch all metadata rows
and return them without payload hydration — no blob fetches, so every
returned entry has `payload = none`. -/
def listDiagrams (st : SysState) : List DiagramResponse :=
  st.records.map (fun r => hydrate r none)

/-- Modelled from the spec: the Update state machine of §4.4 (the PUT
handler in `diagram/main.py` is not under `src/`).  Fetch metadata by id; if
absent, fail with NotFound.  If a payload is provided, overwrite the blob at
the existing deterministic key (failure injected by `blobPutOk = false`:
abort without touching metadata).  Apply the name change if provided, bump
`updated_at`, commit the metadata update, and return the hydrated diagram
(the provided payload if given, else the re-fetched unchanged payload). -/
def updateDiagram (st : SysState) (i : String) (newName : Option String)
    (newPayload : Option Json) (now : Nat) (blobPutOk : Bool) :
    Except DiagramError DiagramResponse × SysState :=
  match findRecord st.records i with
  | none => (Except.error DiagramError.notFound, st)
  | some r =>
    match newPayload with
    | some p =>
      if blobPutOk then
        let r' : DiagramRecord :=
          { r with name := newName.getD r.name, updated_at := now }
        let st2 : SysState :=
          { blobs := insertKey st.blobs (objectName r.id) p
            records := replaceRecord st.records i r' }
        (Except.ok (hydrate r' (some p)), st2)
      else
        (Except.error DiagramError.storageUnavailable, st)
    | none =>
      let r' : DiagramRecord :=
        { r with name := newName.getD r.name, updated_at := now }
      let st2 : SysState := { st with records := replaceRecord st.records i r' }
      (Except.ok (hydrate r' (lookupKey st.blobs (objectName r.id))), st2)

/-- Modelled from the spec: the Delete operation of §4.4 (the DELETE handler
in `diagram/main.py` is not under `src/`).  Fetch metadata by id; if absent,
fail with NotFound.  Delete the blob at the stored key (absence of the blob
is not an error; a transient store failure is injected by
`blobDeleteOk = false`, in which case the operation aborts before touching
the metadata row).  Then delete the metadata row. -/
def deleteDiagram (st : SysState) (i : String) (blobDeleteOk : Bool) :
    Except DiagramError Unit × SysState :=
  match findRecord st.records i with
  | none => (Except.error DiagramError.notFound, st)
  | some r =>
    if blobDeleteOk then
      (Except.ok (),
        { blobs := eraseKey st.blobs (objectName r.id)
          records := eraseRecord st.records i })
    else
      (Except.error DiagramError.storageUnavailable, st)

/-- The record-to-blob reference invariant: every metadata row's stored
location references a blob present in the store. -/
def PointsLive (st : SysState) : Prop :=
  ∀ r ∈ st.records, (lookupKey st.blobs (objectName r.id)).isSome = true

/-- Well-formedness of a reachable state: every row's reference is live,
every row's `payload_url` is the canonical URL derived from its id, and row
ids are pairwise distinct (primary key). -/
def WellFormed (st : SysState) : Prop :=
  PointsLive st ∧
  (∀ r ∈ st.records, r.payload_url = payloadUrlOf r.id) ∧
  (st.records.map DiagramRecord.id).Nodup

instance (st : SysState) : Decidable (PointsLive st) := by
  unfold PointsLive; infer_instance

instance (st : SysState) : Decidable (WellFormed st) := by
  unfold WellFormed; infer_instance

theorem findRecord_mem {rs : List DiagramRecord} {i : String}
    {r : DiagramRecord} (h : findRecord rs i = some r) : r ∈ rs ∧ r.id = i := by
  induction rs with
  | nil => simp [findRecord] at h
  | cons r₀ rest ih =>
    by_cases h₀ : r₀.id = i
    · simp [findRecord, h₀] at h
      exact ⟨by simp [h], h ▸ h₀⟩
    · simp [findRecord, h₀] at h
      obtain ⟨hmem, hid⟩ := ih h
      exact ⟨List.mem_cons_of_mem _ hmem, hid⟩

theorem findRecord_eraseRecord_self (rs : List DiagramRecord) (i : String) :
    findRecord (eraseRecord rs i) i = none := by
  induction rs with
  | nil => rfl
  | cons r₀ rest ih =>
    by_cases h₀ : r₀.id = i
    · simpa [eraseRecord, h₀] using ih
    · simpa [eraseRecord, findRecord, h₀] using ih

theorem mem_eraseRecord {rs : List DiagramRecord} {i : String}
    {r : DiagramRecord} (h : r ∈ eraseRecord rs i) : r ∈ rs ∧ r.id ≠ i := by
  induction rs with
  | nil => simp [eraseRecord] at h
  | cons r₀ rest ih =>
    by_cases h₀ : r₀.id = i
    · rw [eraseRecord, if_pos h₀] at h
      obtain ⟨hmem, hid⟩ := ih h
      exact ⟨List.mem_cons_of_mem _ hmem, hid⟩
    · rw [eraseRecord, if_neg h₀] at h
      rcases List.mem_cons.mp h with h1 | h1
      · exact ⟨by simp [h1], h1 ▸ h₀⟩
      · obtain ⟨hmem, hid⟩ := ih h1
        exact ⟨List.mem_cons_of_mem _ hmem, hid⟩

theorem eraseRecord_sublist (rs : List DiagramRecord) (i : String) :
    (eraseRecord rs i).Sublist rs := by
  induction rs with
  | nil => simp [eraseRecord]
  | cons r₀ rest ih =>
    by_cases h₀ : r₀.id = i
    · rw [eraseRecord, if_pos h₀]
      exact ih.cons r₀
    · rw [eraseRecord, if_neg h₀]
      exact ih.cons₂ r₀

theorem mem_replaceRecord {rs : List DiagramRecord} {i : String}
    {r' r : DiagramRecord} (h : r ∈ replaceRecord rs i r') :
    r = r' ∨ (r ∈ rs ∧ r.id ≠ i) := by
  induction rs with
  | nil => simp [replaceRecord] at h
  | cons r₀ rest ih =>
    rw [replaceRecord, List.map_cons] at h
    rcases List.mem_cons.mp h with h1 | h1
    · by_cases h₀ : r₀.id = i
      · left
        simpa [h₀] using h1
      · right
        rw [if_neg h₀] at h1
        exact ⟨by simp [h1], h1 ▸ h₀⟩
    · rcases ih h1 with h2 | h2
      · exact Or.inl h2
      · exact Or.inr ⟨List.mem_cons_of_mem _ h2.1, h2.2⟩

theorem findRecord_replaceRecord_self {rs : List DiagramRecord} {i : String}
    {r : DiagramRecord} (r' : DiagramRecord) (hr' : r'.id = i)
    (h : findRecord rs i = some r) :
    findRecord (replaceRecord rs i r') i = some r' := by
  induction rs with
  | nil => simp [findRecord] at h
  | cons r₀ rest ih =>
    by_cases h₀ : r₀.id = i
    · simp [replaceRecord, findRecord, h₀, hr']
    · rw [findRecord, if_neg h₀] at h
      simpa [replaceRecord, findRecord, h₀] using ih h

theorem map_id_replaceRecord {rs : List DiagramRecord} {i : String}
    {r' : DiagramRecord} (h : r'.id = i) :
    (replaceRecord rs i r').map DiagramRecord.id = rs.map DiagramRecord.id := by
  induction rs with
  | nil => rfl
  | cons r₀ rest ih =>
    by_cases h₀ : r₀.id = i
    · simp [replaceRecord, List.map_cons, h₀, h] at ih ⊢
      simpa [replaceRecord] using ih
    · simp [replaceRecord, List.map_cons, h₀] at ih ⊢
      simpa [replaceRecord] using ih

theorem createDiagram_blobFail (st : SysState) (newId nm owner : String)
    (payload : Json) (now : Nat) (mOk cOk : Bool) :
    createDiagram st newId nm owner payload now false mOk cOk =
      (Except.error DiagramError.storageUnavailable, st) := rfl

theorem createDiagram_success (st : SysState) (newId nm owner : String)
    (payload : Json) (now : Nat) (cOk : Bool) :
    createDiagram st newId nm owner payload now true true cOk =
      (Except.ok
        (hydrate ⟨newId, nm, owner, payloadUrlOf newId, now, now⟩ (some payload)),
       { blobs := insertKey st.blobs (objectName newId) payload
         records := ⟨newId, nm, owner, payloadUrlOf newId, now, now⟩ :: st.records }) := rfl

theorem createDiagram_metaFail_comp (st : SysState) (newId nm owner : String)
    (payload : Json) (now : Nat) :
    createDiagram st newId nm owner payload now true false true =
      (Except.error DiagramError.repositoryError,
       { blobs := eraseKey (insertKey st.blobs (objectName newId) payload)
           (objectName newId)
         records := st.records }) := rfl

theorem createDiagram_metaFail_nocomp (st : SysState) (newId nm owner : String)
    (payload : Json) (now : Nat) :
    createDiagram st newId nm owner payload now true false false =
      (Except.error DiagramError.repositoryError,
       { blobs := insertKey st.blobs (objectName newId) payload
         records := st.records }) := rfl

theorem wellFormed_create (st : SysState) (newId nm owner : String)
    (payload : Json) (now : Nat) (bOk mOk cOk : Bool)
    (hwf : WellFormed st) (hfresh : ∀ r ∈ st.records, r.id ≠ newId) :
    WellFormed (createDiagram st newId nm owner payload now bOk mOk cOk).2 := by
  obtain ⟨hlive, hurl, hnodup⟩ := hwf
  cases bOk with
  | false =>
    rw [createDiagram_blobFail]
    exact ⟨hlive, hurl, hnodup⟩
  | true =>
    cases mOk with
    | true =>
      rw [createDiagram_success]
      refine ⟨?_, ?_, ?_⟩
      · intro r hr
        rcases List.mem_cons.mp hr with h1 | h1
        · subst h1
          simp
        · by_cases hk : objectName newId = objectName r.id
          · simp [← hk]
          · rw [lookupKey_insertKey_ne _ _ _ _ hk]
            exact hlive r h1
      · intro r hr
        rcases List.mem_cons.mp hr with h1 | h1
        · subst h1; rfl
        · exact hurl r h1
      · simp only [List.map_cons]
        refine List.nodup_cons.mpr ⟨?_, hnodup⟩
        intro hmem
        obtain ⟨r, hr, hid⟩ := List.mem_map.mp hmem
        exact hfresh r hr hid
    | false =>
      cases cOk with
      | false =>
        rw [createDiagram_metaFail_nocomp]
        refine ⟨?_, hurl, hnodup⟩
        intro r hr
        by_cases hk : objectName newId = objectName r.id
        · simp [← hk]
        · rw [lookupKey_insertKey_ne _ _ _ _ hk]
          exact hlive r hr
      | true =>
        rw [createDiagram_metaFail_comp]
        refine ⟨?_, hurl, hnodup⟩
        intro r hr
        have hk : objectName newId ≠ objectName r.id := by
          intro h
          exact hfresh r hr (objectName_inj h).symm
        rw [lookupKey_eraseKey_ne _ _ _ hk,
          lookupKey_insertKey_ne _ _ _ _ hk]
        exact hlive r hr

theorem updateDiagram_notFound (st : SysState) (i : String)
    (nn : Option String) (np : Option Json) (now : Nat) (bOk : Bool)
    (h : findRecord st.records i = none) :
    updateDiagram st i nn np now bOk =
      (Except.error DiagramError.notFound, st) := by
  simp [updateDiagram, h]

theorem updateDiagram_payload (st : SysState) (i : String)
    (nn : Option String) (p : Json) (now : Nat) {r : DiagramRecord}
    (h : findRecord st.records i = some r) :
    updateDiagram st i nn (some p) now true =
      (Except.ok
        (hydrate { r with name := nn.getD r.name, updated_at := now } (some p)),
       { blobs := insertKey st.blobs (objectName r.id) p
         records := replaceRecord st.records i
           { r with name := nn.getD r.name, updated_at := now } }) := by
  simp [updateDiagram, h]

theorem updateDiagram_payload_blobFail (st : SysState) (i : String)
    (nn : Option String) (p : Json) (now : Nat) {r : DiagramRecord}
    (h : findRecord st.records i = some r) :
    updateDiagram st i nn (some p) now false =
      (Except.error DiagramError.storageUnavailable, st) := by
  simp [updateDiagram, h]

theorem updateDiagram_noPayload (st : SysState) (i : String)
    (nn : Option String) (now : Nat) (bOk : Bool) {r : DiagramRecord}
    (h : findRecord st.records i = some r) :
    updateDiagram st i nn none now bOk =
      (Except.ok
        (hydrate { r with name := nn.getD r.name, updated_at := now }
          (lookupKey st.blobs (objectName r.id))),
       { blobs := st.blobs
         records := replaceRecord st.records i
           ({ r with name := nn.getD r.name, updated_at := now }) }) := by
  simp [updateDiagram, h]

theorem deleteDiagram_notFound (st : SysState) (i : String) (dOk : Bool)
    (h : findRecord st.records i = none) :
    deleteDiagram st i dOk = (Except.error DiagramError.notFound, st) := by
  simp [deleteDiagram, h]

theorem deleteDiagram_found (st : SysState) (i : String) {r : DiagramRecord}
    (h : findRecord st.records i = some r) :
    deleteDiagram st i true =
      (Except.ok (),
       { blobs := eraseKey st.blobs (objectName r.id)
         records := eraseRecord st.records i }) := by
  simp [deleteDiagram, h]

theorem deleteDiagram_blobFail (st : SysState) (i : String) {r : DiagramRecord}
    (h : findRecord st.records i = some r) :
    deleteDiagram st i false =
      (Except.error DiagramError.storageUnavailable, st) := by
  simp [deleteDiagram, h]

theorem wellFormed_update (st : SysState) (i : String) (nn : Option String)
    (np : Option Json) (now : Nat) (bOk : Bool) (hwf : WellFormed st) :
    WellFormed (updateDiagram st i nn np now bOk).2 := by
  obtain ⟨hlive, hurl, hnodup⟩ := hwf
  rcases heq : findRecord st.records i with _ | r
  · rw [updateDiagram_notFound st i nn np now bOk heq]
    exact ⟨hlive, hurl, hnodup⟩
  · obtain ⟨hmem, hid⟩ := findRecord_mem heq
    cases np with
    | none =>
      rw [updateDiagram_noPayload st i nn now bOk heq]
      refine ⟨?_, ?_, ?_⟩
      · intro r'' hr''
        rcases mem_replaceRecord hr'' with h1 | h1
        · subst h1
          exact hlive r hmem
        · exact hlive r'' h1.1
      · intro r'' hr''
        rcases mem_replaceRecord hr'' with h1 | h1
        · subst h1
          exact hurl r hmem
        · exact hurl r'' h1.1
      · have hid' :
            ({ r with name := nn.getD r.name, updated_at := now } :
              DiagramRecord).id = i := hid
        rw [map_id_replaceRecord hid']
        exact hnodup
    | some p =>
      cases bOk with
      | false =>
        rw [updateDiagram_payload_blobFail st i nn p now heq]
        exact ⟨hlive, hurl, hnodup⟩
      | true =>
        rw [updateDiagram_payload st i nn p now heq]
        refine ⟨?_, ?_, ?_⟩
        · intro r'' hr''
          rcases mem_replaceRecord hr'' with h1 | h1
          · subst h1
            simp
          · by_cases hk : objectName r.id = objectName r''.id
            · simp [← hk]
            · rw [lookupKey_insertKey_ne _ _ _ _ hk]
              exact hlive r'' h1.1
        · intro r'' hr''
          rcases mem_replaceRecord hr'' with h1 | h1
          · subst h1
            exact hurl r hmem
          · exact hurl r'' h1.1
        · have hid' :
              ({ r with name := nn.getD r.name, updated_at := now } :
                DiagramRecord).id = i := hid
          rw [map_id_replaceRecord hid']
          exact hnodup

theorem wellFormed_delete (st : SysState) (i : String) (dOk : Bool)
    (hwf : WellFormed st) : WellFormed (deleteDiagram st i dOk).2 := by
  obtain ⟨hlive, hurl, hnodup⟩ := hwf
  rcases heq : findRecord st.records i with _ | r
  · rw [deleteDiagram_notFound st i dOk heq]
    exact ⟨hlive, hurl, hnodup⟩
  · obtain ⟨hmem, hid⟩ := findRecord_mem heq
    cases dOk with
    | false =>
      rw [deleteDiagram_blobFail st i heq]
      exact ⟨hlive, hurl, hnodup⟩
    | true =>
      rw [deleteDiagram_found st i heq]
      refine ⟨?_, ?_, ?_⟩
      · intro r'' hr''
        obtain ⟨h1, h2⟩ := mem_eraseRecord hr''
        have hk : objectName r.id ≠ objectName r''.id := by
          intro h
          exact h2 ((objectName_inj h) ▸ hid)
        rw [lookupKey_eraseKey_ne _ _ _ hk]
        exact hlive r'' h1
      · intro r'' hr''
        exact hurl r'' (mem_eraseRecord hr'').1
      · exact hnodup.sublist ((eraseRecord_sublist st.records i).map DiagramRecord.id)

theorem eraseKey_eraseKey (b : BlobStore) (k : String) :
    eraseKey (eraseKey b k) k = eraseKey b k := by
  induction b with
  | nil => rfl
  | cons p rest ih =>
    obtain ⟨k₀, v₀⟩ := p
    by_cases h : k₀ = k
    · simpa [eraseKey, h] using ih
    · simp [eraseKey, h, ih]

theorem eraseKey_of_absent (b : BlobStore) (k : String)
    (h : lookupKey b k = none) : eraseKey b k = b := by
  induction b with
  | nil => rfl
  | cons p rest ih =>
    obtain ⟨k₀, v₀⟩ := p
    by_cases h₀ : k₀ = k
    · simp [lookupKey, h₀] at h
    · rw [lookupKey, if_neg h₀] at h
      simp [eraseKey, h₀, ih h]

/-- The outcome of the HTTP round trip to the diagram service inside
`forward_request` in `gateway/main.py`: either the service produced a
response (a status code and a JSON body), or the request failed at the
transport level (`httpx.RequestError`). -/
inductive UpstreamOutcome where
  | response (status : Nat) (body : Json) : UpstreamOutcome
  | requestError (msg : String) : UpstreamOutcome

/-- A FastAPI `HTTPException` as raised by `forward_request` in
`gateway/main.py`: a status code and a JSON detail. -/
structure GatewayHTTPException where
  status_code : Nat
  detail : Json

/-- `forward_request` from `gateway/main.py`.  On a service response,
`response.raise_for_status()` raises `httpx.HTTPStatusError` exactly for
4xx and 5xx statuses, which the handler turns into an `HTTPException`
carrying the same status code and the response's JSON body as detail; a
non-error response is returned as its JSON body.  On a transport-level
`httpx.RequestError`, the handler raises an `HTTPException` with status 503
and a "Diagram service unavailable: " message as detail. -/
def forward_request : UpstreamOutcome → Except GatewayHTTPException Json
  | UpstreamOutcome.response s b =>
    if 400 ≤ s ∧ s ≤ 599 then Except.error ⟨s, b⟩ else Except.ok b
  | UpstreamOutcome.requestError m =>
    Except.error ⟨503, Json.str ("Diagram service unavailable: " ++ m)⟩

/-- A concrete metadata row used to instantiate the claim theorems. -/
def exampleRecord : DiagramRecord :=
  ⟨"a", "Login Flow", "U1", payloadUrlOf "a", 0, 0⟩

/-- A concrete well-formed state: one diagram with id "a", its blob stored
at the canonical key. -/
def exampleState : SysState :=
  ⟨[(objectName "a", Json.null)], [exampleRecord]⟩

/-- C1: in every reachable state, every metadata row references a blob that
exists in the blob store (`PointsLive`), and every completed `createDiagram`
(in all its outcomes, the compensated and uncompensated metadata-insert
failure included), `updateDiagram`, and `deleteDiagram` operation preserves
this invariant, packaged with the auxiliary well-formedness facts
(canonical URLs and distinct ids) that make it inductive. -/
theorem claim1_referential_invariant (st : SysState)
    (newId nm owner : String) (payload : Json) (now : Nat)
    (bOk mOk cOk : Bool) (i : String) (nn : Option String)
    (np : Option Json) (now' : Nat) (uOk dOk : Bool)
    (hwf : WellFormed st) (hfresh : ∀ r ∈ st.records, r.id ≠ newId) :
    PointsLive st ∧
    WellFormed (createDiagram st newId nm owner payload now bOk mOk cOk).2 ∧
    PointsLive (createDiagram st newId nm owner payload now bOk mOk cOk).2 ∧
    WellFormed (updateDiagram st i nn np now' uOk).2 ∧
    PointsLive (updateDiagram st i nn np now' uOk).2 ∧
    WellFormed (deleteDiagram st i dOk).2 ∧
    PointsLive (deleteDiagram st i dOk).2 := by
  have hc := wellFormed_create st newId nm owner payload now bOk mOk cOk hwf hfresh
  have hu := wellFormed_update st i nn np now' uOk hwf
  have hd := wellFormed_delete st i dOk hwf
  exact ⟨hwf.1, hc, hc.1, hu, hu.1, hd, hd.1⟩

/-- Witness for C1 at a concrete well-formed one-diagram state, a fresh id
"b", and concrete update and delete calls. -/
theorem claim1_witness :
    PointsLive exampleState ∧
    WellFormed (createDiagram exampleState "b" "nm" "ow" Json.null 1 true true true).2 ∧
    PointsLive (createDiagram exampleState "b" "nm" "ow" Json.null 1 true true true).2 ∧
    WellFormed (updateDiagram exampleState "a" none none 2 true).2 ∧
    PointsLive (updateDiagram exampleState "a" none none 2 true).2 ∧
    WellFormed (deleteDiagram exampleState "a" true).2 ∧
    PointsLive (deleteDiagram exampleState "a" true).2 :=
  claim1_referential_invariant exampleState "b" "nm" "ow" Json.null 1
    true true true "a" none none 2 true true (by decide) (by decide)

/-- C2: when the blob write succeeds and the metadata insert fails, the
coordinator surfaces the metadata-write error whatever the compensation
outcome; if compensation succeeds the just-written blob is gone, if
compensation fails the blob remains (the documented orphan window). -/
theorem claim2_compensation_error_priority (st : SysState)
    (newId nm owner : String) (payload : Json) (now : Nat) (cOk : Bool) :
    (createDiagram st newId nm owner payload now true false cOk).1 =
      Except.error DiagramError.repositoryError ∧
    (cOk = true →
      lookupKey (createDiagram st newId nm owner payload now true false cOk).2.blobs
        (objectName newId) = none) ∧
    (cOk = false →
      lookupKey (createDiagram st newId nm owner payload now true false cOk).2.blobs
        (objectName newId) = some payload) := by
  cases cOk with
  | true => simp [createDiagram_metaFail_comp, lookupKey_eraseKey_self]
  | false => simp [createDiagram_metaFail_nocomp]

/-- Witness for C2 at a concrete state, with both compensation outcomes. -/
theorem claim2_witness :
    ((createDiagram exampleState "b" "nm" "ow" Json.null 1 true false true).1 =
      Except.error DiagramError.repositoryError ∧
    (true = true →
      lookupKey (createDiagram exampleState "b" "nm" "ow" Json.null 1 true false true).2.blobs
        (objectName "b") = none) ∧
    (true = false →
      lookupKey (createDiagram exampleState "b" "nm" "ow" Json.null 1 true false true).2.blobs
        (objectName "b") = some Json.null)) :=
  claim2_compensation_error_priority exampleState "b" "nm" "ow" Json.null 1 true

/-- C3: `getDiagram` fails with NotFound exactly when no metadata row
exists; when the row exists but the blob at its key is absent it fails with
IntegrityError, which is distinct from NotFound; when both exist it returns
the hydrated diagram. -/
theorem claim3_get_semantics (st : SysState) (i : String) :
    (getDiagram st i = Except.error DiagramError.notFound ↔
      findRecord st.records i = none) ∧
    (∀ r, findRecord st.records i = some r →
      lookupKey st.blobs (objectName r.id) = none →
        getDiagram st i = Except.error DiagramError.integrityError) ∧
    (∀ r p, findRecord st.records i = some r →
      lookupKey st.blobs (objectName r.id) = some p →
        getDiagram st i = Except.ok (hydrate r (some p))) ∧
    DiagramError.integrityError ≠ DiagramError.notFound := by
  refine ⟨⟨?_, ?_⟩, ?_, ?_, by simp⟩
  · intro h
    rcases heq : findRecord st.records i with _ | r
    · rfl
    · rcases hb : lookupKey st.blobs (objectName r.id) with _ | p
      · simp [getDiagram, heq, hb] at h
      · simp [getDiagram, heq, hb] at h
  · intro h
    simp [getDiagram, h]
  · intro r heq hb
    simp [getDiagram, heq, hb]
  · intro r p heq hb
    simp [getDiagram, heq, hb]

/-- Witness for C3: a hit on the concrete state, and NotFound on the empty
state. -/
theorem claim3_witness :
    getDiagram exampleState "a" = Except.ok (hydrate exampleRecord (some Json.null)) ∧
    getDiagram ⟨[], []⟩ "a" = Except.error DiagramError.notFound :=
  ⟨(claim3_get_semantics exampleState "a").2.2.1 exampleRecord Json.null rfl rfl,
   (claim3_get_semantics ⟨[], []⟩ "a").1.mpr rfl⟩

/-- C4: a successful `createDiagram` followed by `getDiagram` on the
returned id yields a response with the same name, the same owner id, and a
payload equal to the input payload (in fact the very response `createDiagram`
returned). -/
theorem claim4_create_get_roundtrip (st : SysState)
    (newId nm owner : String) (payload : Json) (now : Nat) (cOk : Bool) :
    ∃ d, (createDiagram st newId nm owner payload now true true cOk).1 =
        Except.ok d ∧
      getDiagram (createDiagram st newId nm owner payload now true true cOk).2
        newId = Except.ok d ∧
      d.name = nm ∧ d.owner_id = owner ∧ d.payload = some payload := by
  refine ⟨hydrate ⟨newId, nm, owner, payloadUrlOf newId, now, now⟩ (some payload),
    ?_, ?_, rfl, rfl, rfl⟩
  · rw [createDiagram_success]
  · rw [createDiagram_success]
    simp [getDiagram, findRecord]

/-- C5: after a successful `deleteDiagram`, `getDiagram` on the same id
fails with NotFound and a direct blob fetch at the diagram's former object
key is absent. -/
theorem claim5_delete_terminal (st : SysState) (i : String)
    (r : DiagramRecord) (h : findRecord st.records i = some r) :
    (deleteDiagram st i true).1 = Except.ok () ∧
    getDiagram (deleteDiagram st i true).2 i =
      Except.error DiagramError.notFound ∧
    lookupKey (deleteDiagram st i true).2.blobs (objectName r.id) = none := by
  rw [deleteDiagram_found st i h]
  exact ⟨rfl, by simp [getDiagram, findRecord_eraseRecord_self],
    lookupKey_eraseKey_self _ _⟩

/-- Witness for C5 at the concrete one-diagram state. -/
theorem claim5_witness :
    (deleteDiagram exampleState "a" true).1 = Except.ok () ∧
    getDiagram (deleteDiagram exampleState "a" true).2 "a" =
      Except.error DiagramError.notFound ∧
    lookupKey (deleteDiagram exampleState "a" true).2.blobs
      (objectName exampleRecord.id) = none :=
  claim5_delete_terminal exampleState "a" exampleRecord rfl

/-- C6: updating an existing diagram with a new payload leaves the location
reference unchanged (the deterministic key, id plus ".json", is reused), a
subsequent `getDiagram` returns the new payload at that same reference, and
the id, owner id, and creation timestamp are unchanged: only name and
updated-at move. -/
theorem claim6_update_preserves_location (st : SysState) (i : String)
    (r : DiagramRecord) (nn : Option String) (p : Json) (now : Nat)
    (h : findRecord st.records i = some r) :
    objectName i = i ++ ".json" ∧
    ∃ d, (updateDiagram st i nn (some p) now true).1 = Except.ok d ∧
      d.payload_url = r.payload_url ∧
      d.id = r.id ∧ d.owner_id = r.owner_id ∧ d.created_at = r.created_at ∧
      findRecord (updateDiagram st i nn (some p) now true).2.records i =
        some { r with name := nn.getD r.name, updated_at := now } ∧
      getDiagram (updateDiagram st i nn (some p) now true).2 i =
        Except.ok
          (hydrate ({ r with name := nn.getD r.name, updated_at := now })
            (some p)) := by
  obtain ⟨hmem, hid⟩ := findRecord_mem h
  have hid' :
      ({ r with name := nn.getD r.name, updated_at := now } :
        DiagramRecord).id = i := hid
  have hf := findRecord_replaceRecord_self
    ({ r with name := nn.getD r.name, updated_at := now }) hid' h
  rw [updateDiagram_payload st i nn p now h]
  exact ⟨rfl,
    hydrate ({ r with name := nn.getD r.name, updated_at := now }) (some p),
    rfl, rfl, rfl, rfl, rfl, hf, by simp [getDiagram, hf]⟩

/-- Witness for C6 at the concrete one-diagram state, renaming and
replacing the payload. -/
theorem claim6_witness :
    objectName "a" = "a" ++ ".json" ∧
    ∃ d, (updateDiagram exampleState "a" (some "n2") (some (Json.num 3)) 5 true).1 =
        Except.ok d ∧
      d.payload_url = exampleRecord.payload_url ∧
      d.id = exampleRecord.id ∧ d.owner_id = exampleRecord.owner_id ∧
      d.created_at = exampleRecord.created_at ∧
      findRecord (updateDiagram exampleState "a" (some "n2") (some (Json.num 3)) 5 true).2.records
        "a" =
        some ({ exampleRecord with
          name := (some "n2").getD exampleRecord.name, updated_at := 5 }) ∧
      getDiagram (updateDiagram exampleState "a" (some "n2") (some (Json.num 3)) 5 true).2
        "a" =
        Except.ok
          (hydrate ({ exampleRecord with
            name := (some "n2").getD exampleRecord.name, updated_at := 5 })
            (some (Json.num 3))) :=
  claim6_update_preserves_location exampleState "a" exampleRecord
    (some "n2") (Json.num 3) 5 rfl

/-- C7: every entry returned by `listDiagrams` has no payload, and the list
operation reads only the metadata rows: its result is unchanged under any
replacement of the blob-store contents, so it performs no blob fetches. -/
theorem claim7_list_excludes_payload (st : SysState) (blobs' : BlobStore) :
    (∀ d ∈ listDiagrams st, d.payload = none) ∧
    listDiagrams { blobs := blobs', records := st.records } = listDiagrams st := by
  constructor
  · intro d hd
    obtain ⟨r, _, hr⟩ := List.mem_map.mp hd
    rw [← hr]
    rfl
  · rfl

/-- Witness for C7: the single entry listed from the concrete state has no
payload. -/
theorem claim7_witness :
    (hydrate exampleRecord none).payload = none :=
  (claim7_list_excludes_payload exampleState []).1 (hydrate exampleRecord none)
    (by simp [listDiagrams, exampleState])

/-- C8: the blob-store delete is idempotent — deleting the same key twice
has the same effect as deleting it once, and deleting an absent key changes
nothing — and the coordinator's delete of an existing diagram succeeds
without requiring the blob to be present ("already gone" is tolerated). -/
theorem claim8_blob_delete_idempotent (b : BlobStore) (k : String)
    (st : SysState) (i : String) (r : DiagramRecord)
    (h : findRecord st.records i = some r) :
    eraseKey (eraseKey b k) k = eraseKey b k ∧
    (lookupKey b k = none → eraseKey b k = b) ∧
    (deleteDiagram st i true).1 = Except.ok () := by
  refine ⟨eraseKey_eraseKey b k, eraseKey_of_absent b k, ?_⟩
  rw [deleteDiagram_found st i h]

/-- Witness for C8: a store where the key is absent, and a state whose
record's blob is already gone, on which delete still succeeds. -/
theorem claim8_witness :
    eraseKey (eraseKey [(objectName "a", Json.null)] "b.json") "b.json" =
      eraseKey [(objectName "a", Json.null)] "b.json" ∧
    (lookupKey [(objectName "a", Json.null)] "b.json" = none →
      eraseKey [(objectName "a", Json.null)] "b.json" =
        [(objectName "a", Json.null)]) ∧
    (deleteDiagram ⟨[], [exampleRecord]⟩ "a" true).1 = Except.ok () :=
  claim8_blob_delete_idempotent [(objectName "a", Json.null)] "b.json"
    ⟨[], [exampleRecord]⟩ "a" exampleRecord rfl

/-- C9: a successful `createDiagram` returns a record whose creation
timestamp equals its update timestamp. -/
theorem claim9_create_timestamps_equal (st : SysState)
    (newId nm owner : String) (payload : Json) (now : Nat) (cOk : Bool) :
    ∃ d, (createDiagram st newId nm owner payload now true true cOk).1 =
        Except.ok d ∧
      d.created_at = d.updated_at := by
  rw [createDiagram_success]
  exact ⟨_, rfl, rfl⟩

/-- C10: the gateway mirrors a 4xx or 5xx diagram-service response as an
HTTPException with the same status code and the service's JSON body as
detail; a transport-level failure becomes a 503 HTTPException; any
non-error response is returned as its JSON body unchanged. -/
theorem claim10_gateway_forwarding (s : Nat) (b : Json) (m : String) :
    (400 ≤ s → s ≤ 599 →
      forward_request (UpstreamOutcome.response s b) = Except.error ⟨s, b⟩) ∧
    forward_request (UpstreamOutcome.requestError m) =
      Except.error ⟨503, Json.str ("Diagram service unavailable: " ++ m)⟩ ∧
    (s < 400 →
      forward_request (UpstreamOutcome.response s b) = Except.ok b) := by
  refine ⟨?_, rfl, ?_⟩
  · intro h1 h2
    simp [forward_request, h1, h2]
  · intro h
    have hne : ¬(400 ≤ s ∧ s ≤ 599) := fun hc => absurd hc.1 (by omega)
    simp [forward_request, hne]

/-- Witness for C10 at status 404 (error mirrored), a transport failure,
and status 200 (body passed through). -/
theorem claim10_witness :
    ((400 ≤ 404 → 404 ≤ 599 →
      forward_request (UpstreamOutcome.response 404 Json.null) =
        Except.error ⟨404, Json.null⟩) ∧
    forward_request (UpstreamOutcome.requestError "down") =
      Except.error ⟨503, Json.str ("Diagram service unavailable: " ++ "down")⟩ ∧
    (404 < 400 →
      forward_request (UpstreamOutcome.response 404 Json.null) =
        Except.ok Json.null)) ∧
    (200 < 400 →
      forward_request (UpstreamOutcome.response 200 Json.null) =
        Except.ok Json.null) :=
  ⟨claim10_gateway_forwarding 404 Json.null "down",
   (claim10_gateway_forwarding 200 Json.null "down").2.2⟩

end UmlDiagramming
